import Mathlib

/-!
Verification of the MVCC isolation-level key-value store.

The Go sources are shallowly embedded as Lean functions:

* `btree.Set[string]` and `btree.Set[uint64]` become sorted duplicate-free
  lists with `strInsert`; iteration order is ascending, `Iter.Seek k`
  positions at the first element greater than or equal to `k` and reports
  whether one exists (tidwall/btree semantics).
* `btree.Map[uint64, Transaction]` becomes a list of pairs sorted by key
  with insert-or-replace (`txSet`), exact lookup (`txGet`) and
  `txSeek` giving the first entry whose key is greater than or equal to
  the requested id, mirroring `Iter.Seek`.
* `map[string][]Value` becomes an association list (`storeGet` / `storeSet`);
  a missing key reads as the empty version list, as a nil Go slice does.
* Go panics (`utils.Assert`, `utils.AssertEq`) are modelled as a
  distinguished error result `assertViolation`; `transactionState` on an
  id absent from history (a panic in Go) makes `validTransaction` false.
-/

inductive IsolationLevel
  | readUncommitted
  | readCommitted
  | repeatableRead
  | snapshot
  | serializable
  deriving DecidableEq, Repr

inductive TransactionState
  | inProgress
  | rolledBack
  | committed
  deriving DecidableEq, Repr

/-- `Value` in value.go: a version bounded by creating and deleting
transaction ids. -/
structure Value where
  txStartId : Nat
  txEndId : Nat
  value : String
  deriving DecidableEq, Repr

/-- `Transaction` in transaction.go: isolation level, id, state, the set of
ids in progress at begin, and the read and write sets. -/
structure Transaction where
  isolation : IsolationLevel
  id : Nat
  state : TransactionState
  inprogress : List Nat
  writeset : List String
  readset : List String
  deriving DecidableEq, Repr

/-- `Database` in database.go. -/
structure Database where
  defaultIsolation : IsolationLevel
  store : List (String × List Value)
  transactions : List (Nat × Transaction)
  nextTransactionId : Nat
  deriving DecidableEq, Repr

/-- Lexicographic comparison of strings as code-point sequences, the order
Go uses on string keys. -/
def charListLt : List Char → List Char → Bool
  | _, [] => false
  | [], _ :: _ => true
  | a :: as, b :: bs =>
      if a.toNat < b.toNat then true
      else if b.toNat < a.toNat then false
      else charListLt as bs

/-- Go string comparison. -/
def strLt (a b : String) : Bool := charListLt a.data b.data

/-- `btree.Set.Insert`: sorted insertion without duplicates. -/
def strInsert (x : String) : List String → List String
  | [] => [x]
  | y :: ys => if strLt x y then x :: y :: ys else if x = y then y :: ys else y :: strInsert x ys

/-- `btree.Set.Iter.Seek` returns whether the set holds an element
greater than or equal to the key (an element `y` with `¬ y < k`); existence
does not depend on iteration order. -/
def setSeekFound (s : List String) (k : String) : Bool :=
  s.any (fun y => ! strLt y k)

/-- `setsShareKeys` in database.go: for each element of `s1` the code calls
`s2Iter.Seek(s1Key)` and returns true as soon as `found` is true, without
comparing the found element to `s1Key`. -/
def setsShareKeys (s1 s2 : List String) : Bool :=
  s1.any (fun k1 => setSeekFound s2 k1)

/-- `btree.Map.Set`: insert or replace, keeping keys sorted. -/
def txSet : List (Nat × Transaction) → Nat → Transaction → List (Nat × Transaction)
  | [], id, t => [(id, t)]
  | p :: ps, id, t =>
      if id < p.1 then (id, t) :: p :: ps
      else if id = p.1 then (id, t) :: ps
      else p :: txSet ps id t

/-- `btree.Map.Get`: exact lookup. -/
def txGet : List (Nat × Transaction) → Nat → Option Transaction
  | [], _ => none
  | p :: ps, id => if p.1 = id then some p.2 else txGet ps id

/-- `btree.Map.Iter.Seek`: the first entry (in ascending key order) whose
key is greater than or equal to `id`. -/
def txSeek : List (Nat × Transaction) → Nat → Option Transaction
  | [], _ => none
  | p :: ps, id => if id ≤ p.1 then some p.2 else txSeek ps id

/-- Go map read `d.store[key]`: a missing key yields the nil slice. -/
def storeGet : List (String × List Value) → String → List Value
  | [], _ => []
  | p :: ps, k => if p.1 = k then p.2 else storeGet ps k

/-- Go map write `d.store[key] = vs`. -/
def storeSet : List (String × List Value) → String → List Value → List (String × List Value)
  | [], k, vs => [(k, vs)]
  | p :: ps, k, vs => if p.1 = k then (k, vs) :: ps else p :: storeSet ps k vs

/-- The placeholder record returned when `transactionState` is consulted for
an id absent from history; in Go this is a panic, which is unreachable in
valid executions. Its state is deliberately not committed. -/
def missingTransaction : Transaction :=
  { isolation := IsolationLevel.readUncommitted, id := 0,
    state := TransactionState.inProgress, inprogress := [], writeset := [], readset := [] }

/-- `Database.transactionState`. -/
def transactionState (d : Database) (txId : Nat) : Transaction :=
  (txGet d.transactions txId).getD missingTransaction

/-- `Database.inprogress`: ids of history entries in the in-progress state,
in ascending iteration order. -/
def inprogressIds (d : Database) : List Nat :=
  d.transactions.filterMap (fun p => if p.2.state = TransactionState.inProgress then some p.1 else none)

/-- `Database.newTransaction`: assign the next id, bump the counter, snapshot
the in-progress ids (before the new record is added, so never the new id
itself), and install the record in history. -/
def newTransaction (d : Database) : Database × Transaction :=
  let t : Transaction :=
    { isolation := d.defaultIsolation, id := d.nextTransactionId,
      state := TransactionState.inProgress, inprogress := inprogressIds d,
      writeset := [], readset := [] }
  let d1 : Database := { d with nextTransactionId := d.nextTransactionId + 1 }
  ({ d1 with transactions := txSet d1.transactions t.id t }, t)

/-- `Database.isVisible`, translated branch by branch from database.go. -/
def isVisible (d : Database) (t : Transaction) (v : Value) : Bool :=
  if t.isolation = IsolationLevel.readUncommitted then
    v.txEndId = 0
  else if t.isolation = IsolationLevel.readCommitted then
    if v.txStartId ≠ t.id ∧ (transactionState d v.txStartId).state ≠ TransactionState.committed then
      false
    else if v.txEndId > 0 then
      if v.txEndId = t.id then false
      else if (transactionState d v.txEndId).state = TransactionState.committed then false
      else true
    else true
  else
    -- Repeatable Read, Snapshot and Serializable
    if v.txStartId > t.id then false
    else if v.txStartId ∈ t.inprogress then false
    else if v.txStartId ≠ t.id ∧ (transactionState d v.txStartId).state ≠ TransactionState.committed then
      false
    else if v.txEndId > 0 then
      if v.txEndId = t.id then false
      else if v.txEndId < t.id ∧ (transactionState d v.txEndId).state = TransactionState.committed then
        false
      else true
    else true

/-- One probe of `hasConflict`: `iter.Seek(id)` and, when found, check the
committed state and the conflict function against the history record. -/
def conflictAt (d : Database) (t1 : Transaction)
    (conflictFn : Transaction → Transaction → Bool) (id : Nat) : Bool :=
  match txSeek d.transactions id with
  | none => false
  | some t2 => t2.state = TransactionState.committed && conflictFn t1 t2

/-- `Database.hasConflict`: probe every id of `t1.inprogress`, then every id
from `t1.id` up to (excluding) `nextTransactionId`. -/
def hasConflict (d : Database) (t1 : Transaction)
    (conflictFn : Transaction → Transaction → Bool) : Bool :=
  t1.inprogress.any (conflictAt d t1 conflictFn) ||
    (List.range' t1.id (d.nextTransactionId - t1.id)).any (conflictAt d t1 conflictFn)

/-- The Snapshot Isolation conflict function passed in completeTransaction. -/
def snapshotConflictFn (t1 t2 : Transaction) : Bool :=
  setsShareKeys t1.writeset t2.writeset

/-- The Serializable conflict function passed in completeTransaction. -/
def serializableConflictFn (t1 t2 : Transaction) : Bool :=
  setsShareKeys t1.readset t2.writeset || setsShareKeys t1.writeset t2.readset ||
    setsShareKeys t1.writeset t2.writeset

/-- The unconditional tail of `completeTransaction`: record the state on the
transaction and write the updated record into history. -/
def recordState (d : Database) (t : Transaction) (state : TransactionState) :
    Database × Transaction :=
  let tr : Transaction := { t with state := state }
  ({ d with transactions := txSet d.transactions tr.id tr }, tr)

/-- `Database.completeTransaction`. On a conflicting commit the Go code
re-enters itself with the rolled-back state, which on that call runs only
the unconditional tail; that recursive call is unfolded here as
`recordState`. -/
def completeTransaction (d : Database) (t : Transaction) (state : TransactionState) :
    Database × Transaction × Except String Unit :=
  if state = TransactionState.committed ∧ t.isolation = IsolationLevel.snapshot ∧
      hasConflict d t snapshotConflictFn then
    let p := recordState d t TransactionState.rolledBack
    (p.1, p.2, Except.error "write-write conflict")
  else if state = TransactionState.committed ∧ t.isolation = IsolationLevel.serializable ∧
      hasConflict d t serializableConflictFn then
    let p := recordState d t TransactionState.rolledBack
    (p.1, p.2, Except.error "read-write or write-write conflict")
  else
    let p := recordState d t state
    (p.1, p.2, Except.ok ())

/-- The six commands of `Connection.ExecCommand`. -/
inductive Command
  | begin
  | commit
  | rollback
  | get (key : String)
  | set (key : String) (val : String)
  | delete (key : String)
  deriving DecidableEq, Repr

/-- Result standing in for a Go panic raised by `utils.Assert` or
`utils.AssertEq`; unreachable under the documented preconditions. -/
def assertViolation : String := "assertion violated"

/-- `Database.assertValidTransaction`: the tx pointer is non-nil, its id is
positive, and its history record exists and is in progress (a missing
record would make `transactionState` panic in Go). -/
def validTransaction (d : Database) (ot : Option Transaction) : Bool :=
  match ot with
  | none => false
  | some t =>
      decide (t.id > 0) &&
        match txGet d.transactions t.id with
        | some h => h.state = TransactionState.inProgress
        | none => false

/-- The tombstoning scan shared by `set` and `delete`: every version visible
to `t` gets `txEndId := t.id`; `found` records whether any version was
visible. Element checks are independent, so the Go newest-to-oldest order
does not affect the result. -/
def tombstoneVisible (d : Database) (t : Transaction) (vs : List Value) : List Value :=
  vs.map (fun v => if isVisible d t v then { v with txEndId := t.id } else v)

/-- `Connection.ExecCommand`, threading the database and the connection's
optional live transaction explicitly. The `rollback` branch is modelled
from the spec: the Go source passes `AbortedTransaction`, whose declaration
is outside the provided sources; the spec states rollback transitions the
transaction to rolled-back. -/
def execCommand (d : Database) (ctx : Option Transaction) (cmd : Command) :
    Database × Option Transaction × Except String String :=
  match cmd with
  | Command.begin =>
      match ctx with
      | some t => (d, some t, Except.error assertViolation)
      | none =>
          let p := newTransaction d
          (p.1, some p.2, Except.ok (toString p.2.id))
  | Command.rollback =>
      if validTransaction d ctx then
        match ctx with
        | none => (d, ctx, Except.error assertViolation)
        | some t =>
            let p := completeTransaction d t TransactionState.rolledBack
            (p.1, none, p.2.2.map (fun _ => ""))
      else (d, ctx, Except.error assertViolation)
  | Command.commit =>
      if validTransaction d ctx then
        match ctx with
        | none => (d, ctx, Except.error assertViolation)
        | some t =>
            let p := completeTransaction d t TransactionState.committed
            (p.1, none, p.2.2.map (fun _ => ""))
      else (d, ctx, Except.error assertViolation)
  | Command.get key =>
      if validTransaction d ctx then
        match ctx with
        | none => (d, ctx, Except.error assertViolation)
        | some t =>
            let t1 : Transaction := { t with readset := strInsert key t.readset }
            match ((storeGet d.store key).reverse).find? (fun v => isVisible d t1 v) with
            | some v => (d, some t1, Except.ok v.value)
            | none => (d, some t1, Except.error "cannot get key that doesn't exist")
      else (d, ctx, Except.error assertViolation)
  | Command.set key val =>
      if validTransaction d ctx then
        match ctx with
        | none => (d, ctx, Except.error assertViolation)
        | some t =>
            let vs := storeGet d.store key
            let d1 : Database := { d with store := storeSet d.store key (tombstoneVisible d t vs) }
            let t1 : Transaction := { t with writeset := strInsert key t.writeset }
            let newV : Value := { txStartId := t.id, txEndId := 0, value := val }
            ({ d1 with store := storeSet d1.store key (storeGet d1.store key ++ [newV]) },
              some t1, Except.ok val)
      else (d, ctx, Except.error assertViolation)
  | Command.delete key =>
      if validTransaction d ctx then
        match ctx with
        | none => (d, ctx, Except.error assertViolation)
        | some t =>
            let vs := storeGet d.store key
            let found := vs.any (fun v => isVisible d t v)
            let d1 : Database := { d with store := storeSet d.store key (tombstoneVisible d t vs) }
            if found then
              let t1 : Transaction := { t with writeset := strInsert key t.writeset }
              (d1, some t1, Except.ok "")
            else
              (d1, some t, Except.error "cannot delete key that doesn't exist")
      else (d, ctx, Except.error assertViolation)

/-- `NewDatabase`. -/
def newDatabase (isolationLevel : IsolationLevel) : Database :=
  { defaultIsolation := isolationLevel, store := [], transactions := [], nextTransactionId := 1 }

instance {ε α : Type} [DecidableEq ε] [DecidableEq α] : DecidableEq (Except ε α) := fun x y =>
  match x, y with
  | Except.error a, Except.error b =>
      if h : a = b then isTrue (by rw [h]) else isFalse (fun hc => h (by cases hc; rfl))
  | Except.ok a, Except.ok b =>
      if h : a = b then isTrue (by rw [h]) else isFalse (fun hc => h (by cases hc; rfl))
  | Except.error a, Except.ok b => isFalse (fun hc => Except.noConfusion hc)
  | Except.ok a, Except.error b => isFalse (fun hc => Except.noConfusion hc)

/-! ### General lemmas about the embedding -/

theorem storeGet_storeSet_self (s : List (String × List Value)) (k : String) (vs : List Value) :
    storeGet (storeSet s k vs) k = vs := by
  induction s with
  | nil => simp [storeGet, storeSet]
  | cons p ps ih =>
      by_cases h : p.1 = k
      · simp [storeGet, storeSet, h]
      · simp [storeGet, storeSet, h, ih]

theorem storeGet_storeSet_ne (s : List (String × List Value)) (k k2 : String) (vs : List Value)
    (h : k2 ≠ k) : storeGet (storeSet s k vs) k2 = storeGet s k2 := by
  have hk : k ≠ k2 := fun hc => h hc.symm
  induction s with
  | nil => simp [storeGet, storeSet, hk]
  | cons p ps ih =>
      by_cases hp : p.1 = k
      · have hp2 : p.1 ≠ k2 := fun hc => h (hc.symm.trans hp)
        simp [storeGet, storeSet, hp, hp2, hk]
      · simp only [storeSet, hp, if_false]
        by_cases hp2 : p.1 = k2
        · simp [storeGet, hp2]
        · simp [storeGet, hp2, ih]

theorem txGet_txSet_self (m : List (Nat × Transaction)) (id : Nat) (t : Transaction) :
    txGet (txSet m id t) id = some t := by
  induction m with
  | nil => simp [txGet, txSet]
  | cons p ps ih =>
      by_cases h1 : id < p.1
      · simp [txGet, txSet, h1]
      · by_cases h2 : id = p.1
        · simp [txGet, txSet, h1, h2]
        · have hne : p.1 ≠ id := fun hc => h2 hc.symm
          simp [txGet, txSet, h1, h2, hne, ih]

/-- `isVisible` reads only the history and the isolation level, id and
in-progress snapshot of the transaction; the store, the id counter and the
read and write sets are irrelevant. -/
theorem isVisible_congr (d1 d2 : Database) (t1 t2 : Transaction) (v : Value)
    (hd : d1.transactions = d2.transactions) (hiso : t1.isolation = t2.isolation)
    (hid : t1.id = t2.id) (hip : t1.inprogress = t2.inprogress) :
    isVisible d1 t1 v = isVisible d2 t2 v := by
  simp only [isVisible, transactionState, hd, hiso, hid, hip]

/-- A version whose `txEndId` equals the id of a transaction with a positive
id is never visible to that transaction, at any isolation level. -/
theorem isVisible_self_ended (d : Database) (t : Transaction) (w : Value)
    (hid : t.id ≠ 0) (hw : w.txEndId = t.id) : isVisible d t w = false := by
  unfold isVisible
  split_ifs <;> first
    | rfl
    | (simp only [decide_eq_false_iff_not]; omega)
    | omega

/-- When no version of a list is visible, the tombstoning scan leaves the
list unchanged. -/
theorem tombstoneVisible_of_none (d : Database) (t : Transaction) (vs : List Value)
    (h : vs.any (fun v => isVisible d t v) = false) : tombstoneVisible d t vs = vs := by
  induction vs with
  | nil => rfl
  | cons w ws ih =>
      simp only [List.any_cons, Bool.or_eq_false_iff] at h
      simp only [tombstoneVisible, List.map_cons, h.1, Bool.false_eq_true, if_false]
      have := ih h.2
      simpa [tombstoneVisible] using this

/-! ### Concrete fixtures

`rcTrace*`: a Read Committed history exercising the tombstone overwrite.
`snapTrace*`: a Snapshot Isolation history with disjoint writesets.
`serTrace*`: the Serializable history of TestSerializableIsolation. -/

def rcTrace0 : Database := newDatabase IsolationLevel.readCommitted
def rcTrace1 := execCommand rcTrace0 none Command.begin
def rcTrace2 := execCommand rcTrace1.1 rcTrace1.2.1 (Command.set "x" "a")
def rcTrace3 := execCommand rcTrace2.1 rcTrace2.2.1 Command.commit
def rcTrace4 := execCommand rcTrace3.1 none Command.begin
def rcTrace5 := execCommand rcTrace4.1 rcTrace4.2.1 (Command.set "x" "b")
def rcTrace6 := execCommand rcTrace5.1 rcTrace5.2.1 Command.rollback
def rcTrace7 := execCommand rcTrace6.1 none Command.begin
def rcTrace8 := execCommand rcTrace7.1 rcTrace7.2.1 (Command.set "x" "c")

def snapTrace0 : Database := newDatabase IsolationLevel.snapshot
def snapTrace1 := execCommand snapTrace0 none Command.begin
def snapTrace2 := execCommand snapTrace1.1 none Command.begin
def snapTrace3 := execCommand snapTrace2.1 snapTrace2.2.1 (Command.set "b" "2")
def snapTrace4 := execCommand snapTrace3.1 snapTrace3.2.1 Command.commit
def snapTrace5 := execCommand snapTrace4.1 snapTrace1.2.1 (Command.set "a" "1")
def snapTrace6 := execCommand snapTrace5.1 snapTrace5.2.1 Command.commit

def serTrace0 : Database := newDatabase IsolationLevel.serializable
def serTrace1 := execCommand serTrace0 none Command.begin
def serTrace2 := execCommand serTrace1.1 none Command.begin
def serTrace3 := execCommand serTrace2.1 serTrace1.2.1 (Command.set "x" "hey")
def serTrace4 := execCommand serTrace3.1 serTrace3.2.1 Command.commit
def serTrace5 := execCommand serTrace4.1 serTrace2.2.1 (Command.get "x")
def serTrace6 := execCommand serTrace5.1 serTrace5.2.1 Command.commit

/-- The live transaction of the second connection after its failed get in
the serializable trace. -/
def serTx2AfterGet : Transaction :=
  { isolation := IsolationLevel.serializable, id := 2,
    state := TransactionState.inProgress, inprogress := [1],
    writeset := [], readset := ["x"] }

/-- The live transaction of the first connection after `set a 1` in the
snapshot trace. -/
def snapTx1AfterSet : Transaction :=
  { isolation := IsolationLevel.snapshot, id := 1,
    state := TransactionState.inProgress, inprogress := [],
    writeset := ["a"], readset := [] }

/-- History and transaction used against the claimed deletion rule of the
strict-level visibility predicate: transactions 1 and 2 are committed, the
reader began while transaction 1 was still in progress. -/
def visDb : Database :=
  { defaultIsolation := IsolationLevel.repeatableRead, store := [],
    transactions :=
      [(1, { isolation := IsolationLevel.repeatableRead, id := 1,
             state := TransactionState.committed, inprogress := [],
             writeset := [], readset := [] }),
       (2, { isolation := IsolationLevel.repeatableRead, id := 2,
             state := TransactionState.committed, inprogress := [],
             writeset := [], readset := [] })],
    nextTransactionId := 3 }

/-- The reader: id 3, Repeatable Read, transaction 1 was in progress when it
began. -/
def visReader : Transaction :=
  { isolation := IsolationLevel.repeatableRead, id := 3,
    state := TransactionState.inProgress, inprogress := [1],
    writeset := [], readset := [] }

/-- A version created by committed transaction 2 and deleted by committed
transaction 1, which was in progress when the reader began. -/
def visVersion : Value := { txStartId := 2, txEndId := 1, value := "a" }

/-! ### Claim theorems -/

/-- C1 counterexample. At an input satisfying every restriction the claim
assumes (strict isolation, snapshot restrictions, writer visibility), the
deletion rule claimed by the spec says the version stays visible, because
the deleting transaction is in the reader's in-progress snapshot; the code
nevertheless hides it: `isVisible` tests only `txEndId < t.id` and the
committed state of the deleter, never membership in `t.inprogress`. -/
theorem c1_claim_counterexample :
    (visReader.isolation = IsolationLevel.repeatableRead ∧
      visVersion.txStartId ≤ visReader.id ∧
      visVersion.txStartId ∉ visReader.inprogress ∧
      (transactionState visDb visVersion.txStartId).state = TransactionState.committed ∧
      visVersion.txEndId ≠ 0) ∧
    ¬(visVersion.txEndId = visReader.id ∨
        (visVersion.txEndId < visReader.id ∧
          visVersion.txEndId ∉ visReader.inprogress ∧
          (transactionState visDb visVersion.txEndId).state = TransactionState.committed)) ∧
    isVisible visDb visReader visVersion = false := by
  decide

/-- C1 amended: at Repeatable Read, Snapshot or Serializable isolation, for
a version passing the snapshot restrictions and the writer-visibility
check, a non-zero `txEndId` hides the version exactly when it equals the
reader's id, or it is smaller than the reader's id and the deleting
transaction is committed — the in-progress snapshot is not consulted for
the deleter, so a deletion by a transaction concurrent at the reader's
begin hides the version as soon as that deleter commits. -/
theorem c1_amended_deletion_rule (d : Database) (t : Transaction) (v : Value)
    (hiso : t.isolation = IsolationLevel.repeatableRead ∨
      t.isolation = IsolationLevel.snapshot ∨ t.isolation = IsolationLevel.serializable)
    (hstart : v.txStartId ≤ t.id)
    (hip : v.txStartId ∉ t.inprogress)
    (hwriter : v.txStartId = t.id ∨
      (transactionState d v.txStartId).state = TransactionState.committed)
    (hend : v.txEndId ≠ 0) :
    isVisible d t v = false ↔
      (v.txEndId = t.id ∨
        (v.txEndId < t.id ∧ (transactionState d v.txEndId).state = TransactionState.committed)) := by
  have hru : t.isolation ≠ IsolationLevel.readUncommitted := by
    rcases hiso with h | h | h <;> simp [h]
  have hrc : t.isolation ≠ IsolationLevel.readCommitted := by
    rcases hiso with h | h | h <;> simp [h]
  have hgt : ¬(v.txStartId > t.id) := by omega
  have hwriter2 : ¬(v.txStartId ≠ t.id ∧
      (transactionState d v.txStartId).state ≠ TransactionState.committed) := by
    rcases hwriter with h | h
    · exact fun hc => hc.1 h
    · exact fun hc => hc.2 h
  have hpos : v.txEndId > 0 := Nat.pos_of_ne_zero hend
  simp only [isVisible, hru, if_false, hrc, hgt, hip, hwriter2, hpos, if_true]
  by_cases he : v.txEndId = t.id
  · simp [he]
  · by_cases hlt : v.txEndId < t.id ∧
        (transactionState d v.txEndId).state = TransactionState.committed
    · simp [he, hlt]
    · simp [he, hlt]

/-- Witness for the amended C1 theorem at the counterexample fixture: the
version is hidden, and the amended rule agrees because the deleter is
committed with a smaller id. -/
theorem c1_amended_deletion_rule_witness :
    isVisible visDb visReader visVersion = false ↔
      (visVersion.txEndId = visReader.id ∨
        (visVersion.txEndId < visReader.id ∧
          (transactionState visDb visVersion.txEndId).state = TransactionState.committed)) :=
  c1_amended_deletion_rule visDb visReader visVersion (Or.inl (by decide)) (by decide)
    (by decide) (Or.inr (by decide)) (by decide)

theorem validTransaction_id_pos (d : Database) (t : Transaction)
    (h : validTransaction d (some t) = true) : 0 < t.id := by
  simp only [validTransaction, Bool.and_eq_true, decide_eq_true_eq] at h
  exact h.1

/-- C2 counterexample. In a Read Committed history the first version of key
x gets its `txEndId` set to 2 by the second transaction, which rolls back;
a third transaction still sees the version and overwrites `txEndId` with 3.
The field thus changes twice and an already non-zero value is replaced by a
different id, refuting the at-most-once transition. -/
theorem c2_claim_counterexample :
    (storeGet rcTrace5.1.store "x").head? = some { txStartId := 1, txEndId := 2, value := "a" } ∧
    (storeGet rcTrace8.1.store "x").head? = some { txStartId := 1, txEndId := 3, value := "a" } ∧
    (2 : Nat) ≠ 0 ∧ (3 : Nat) ≠ 0 ∧ (2 : Nat) ≠ 3 := by
  decide

/-- C2 amended: a `set` or `delete` step rewrites `txEndId` only on versions
currently visible to the acting transaction, always writing the acting
transaction's id; a visible version never already carries that id, so a
given transaction sets a given version's `txEndId` at most once — but a
version whose recorded deleter is not committed stays visible, so a later
transaction may overwrite the non-zero value. -/
theorem c2_amended_txend_mutation (d : Database) (t : Transaction) (key val : String)
    (hvalid : validTransaction d (some t) = true) :
    (∀ v ∈ storeGet d.store key, isVisible d t v = true → v.txEndId ≠ t.id) ∧
    storeGet (execCommand d (some t) (Command.set key val)).1.store key =
      tombstoneVisible d t (storeGet d.store key) ++
        [{ txStartId := t.id, txEndId := 0, value := val }] ∧
    storeGet (execCommand d (some t) (Command.delete key)).1.store key =
      tombstoneVisible d t (storeGet d.store key) := by
  have hid : t.id ≠ 0 := Nat.pos_iff_ne_zero.mp (validTransaction_id_pos d t hvalid)
  refine ⟨?_, ?_, ?_⟩
  · intro v hv hvis hEq
    rw [isVisible_self_ended d t v hid hEq] at hvis
    exact Bool.false_ne_true hvis
  · simp [execCommand, hvalid, storeGet_storeSet_self]
  · by_cases hf : (storeGet d.store key).any (fun v => isVisible d t v) = true
    · simp [execCommand, hvalid, hf, storeGet_storeSet_self]
    · simp [execCommand, hvalid, hf, storeGet_storeSet_self]

/-- A Read Committed database with one committed writer of x and one live
transaction, for instantiating the general theorems. -/
def rcWitnessDb : Database :=
  { defaultIsolation := IsolationLevel.readCommitted,
    store := [("x", [{ txStartId := 1, txEndId := 0, value := "a" }])],
    transactions :=
      [(1, { isolation := IsolationLevel.readCommitted, id := 1,
             state := TransactionState.committed, inprogress := [],
             writeset := ["x"], readset := [] }),
       (2, { isolation := IsolationLevel.readCommitted, id := 2,
             state := TransactionState.inProgress, inprogress := [],
             writeset := [], readset := [] })],
    nextTransactionId := 3 }

/-- The live transaction of `rcWitnessDb`. -/
def rcWitnessTx : Transaction :=
  { isolation := IsolationLevel.readCommitted, id := 2,
    state := TransactionState.inProgress, inprogress := [],
    writeset := [], readset := [] }

theorem c2_amended_txend_mutation_witness :
    storeGet (execCommand rcWitnessDb (some rcWitnessTx) (Command.set "x" "b")).1.store "x" =
      tombstoneVisible rcWitnessDb rcWitnessTx (storeGet rcWitnessDb.store "x") ++
        [{ txStartId := rcWitnessTx.id, txEndId := 0, value := "b" }] :=
  (c2_amended_txend_mutation rcWitnessDb rcWitnessTx "x" "b" (by decide)).2.1

/-- C3 counterexample. In the serializable trace the second connection's
transaction has an empty writeset at commit time — its only operation was a
failed get — and its commit nevertheless fails with the serializable
conflict error. -/
theorem c3_claim_counterexample :
    serTrace5.2.1 = some serTx2AfterGet ∧
    serTx2AfterGet.writeset = [] ∧
    serTx2AfterGet.isolation = IsolationLevel.serializable ∧
    serTrace6.2.2 = Except.error "read-write or write-write conflict" := by
  decide

theorem hasConflict_of_fn_false (d : Database) (t : Transaction)
    (f : Transaction → Transaction → Bool) (hf : ∀ t2, f t t2 = false) :
    hasConflict d t f = false := by
  have hat : ∀ id, conflictAt d t f id = false := by
    intro id
    unfold conflictAt
    cases txSeek d.transactions id with
    | none => rfl
    | some t2 => simp [hf t2]
  simp only [hasConflict, Bool.or_eq_false_iff, List.any_eq_false]
  exact ⟨fun id _ => by rw [hat id]; exact Bool.false_ne_true,
    fun id _ => by rw [hat id]; exact Bool.false_ne_true⟩

theorem mem_strInsert_self (x : String) (s : List String) : x ∈ strInsert x s := by
  induction s with
  | nil => exact List.mem_singleton.mpr rfl
  | cons y ys ih =>
      unfold strInsert
      by_cases h1 : strLt x y = true
      · simp [h1]
      · by_cases h2 : x = y
        · subst h2
          simp [h1]
        · simp only [h1, Bool.false_eq_true, if_false, h2]
          exact List.mem_cons_of_mem y ih

theorem storeSet_storeSet (s : List (String × List Value)) (k : String) (a b : List Value) :
    storeSet (storeSet s k a) k b = storeSet s k b := by
  induction s with
  | nil => simp [storeSet]
  | cons p ps ih =>
      by_cases h : p.1 = k
      · simp [storeSet, h]
      · simp [storeSet, h, ih]

/-! ### Unfolding lemmas for `execCommand` under a valid transaction -/

theorem execCommand_get_eq (d : Database) (t : Transaction) (key : String)
    (hvalid : validTransaction d (some t) = true) :
    execCommand d (some t) (Command.get key) =
      (d, some { t with readset := strInsert key t.readset },
        match ((storeGet d.store key).reverse).find? (fun v => isVisible d t v) with
        | some v => Except.ok v.value
        | none => Except.error "cannot get key that doesn't exist") := by
  have hfun : (fun v => isVisible d { t with readset := strInsert key t.readset } v) =
      (fun v => isVisible d t v) := rfl
  simp only [execCommand, hvalid, if_true, hfun]
  cases hfind : ((storeGet d.store key).reverse).find? (fun v => isVisible d t v) with
  | none => rfl
  | some v => rfl

theorem execCommand_set_eq (d : Database) (t : Transaction) (key val : String)
    (hvalid : validTransaction d (some t) = true) :
    execCommand d (some t) (Command.set key val) =
      ({ d with store := (storeSet d.store key
            (tombstoneVisible d t (storeGet d.store key) ++
              [{ txStartId := t.id, txEndId := 0, value := val }])) },
        some { t with writeset := strInsert key t.writeset }, Except.ok val) := by
  simp only [execCommand, hvalid, if_true, storeGet_storeSet_self, storeSet_storeSet]

theorem execCommand_delete_found_eq (d : Database) (t : Transaction) (key : String)
    (hvalid : validTransaction d (some t) = true)
    (hf : (storeGet d.store key).any (fun v => isVisible d t v) = true) :
    execCommand d (some t) (Command.delete key) =
      ({ d with store := storeSet d.store key (tombstoneVisible d t (storeGet d.store key)) },
        some { t with writeset := strInsert key t.writeset }, Except.ok "") := by
  simp only [execCommand, hvalid, if_true, hf]

theorem execCommand_delete_notfound_eq (d : Database) (t : Transaction) (key : String)
    (hvalid : validTransaction d (some t) = true)
    (hf : (storeGet d.store key).any (fun v => isVisible d t v) = false) :
    execCommand d (some t) (Command.delete key) =
      ({ d with store := storeSet d.store key (tombstoneVisible d t (storeGet d.store key)) },
        some t, Except.error "cannot delete key that doesn't exist") := by
  simp only [execCommand, hvalid, if_true, hf, Bool.false_eq_true, if_false]

theorem execCommand_commit_eq (d : Database) (t : Transaction)
    (hvalid : validTransaction d (some t) = true) :
    execCommand d (some t) Command.commit =
      ((completeTransaction d t TransactionState.committed).1, none,
        (completeTransaction d t TransactionState.committed).2.2.map (fun _ => "")) := by
  simp only [execCommand, hvalid, if_true]

/-- C3 amended: a Snapshot Isolation transaction with an empty writeset
never fails its commit with a conflict, and a Serializable transaction with
empty writeset and empty readset never does; a Serializable transaction
with an empty writeset but a non-empty readset can still conflict (its
readset is checked against committed writers), as the counterexample
shows. -/
theorem c3_amended_empty_sets_commit (d : Database) (t : Transaction)
    (hvalid : validTransaction d (some t) = true)
    (hcase : (t.isolation = IsolationLevel.snapshot ∧ t.writeset = []) ∨
      (t.isolation = IsolationLevel.serializable ∧ t.writeset = [] ∧ t.readset = [])) :
    (execCommand d (some t) Command.commit).2.2 = Except.ok "" ∧
    txGet (execCommand d (some t) Command.commit).1.transactions t.id =
      some { t with state := TransactionState.committed } := by
  rw [execCommand_commit_eq d t hvalid]
  rcases hcase with ⟨hiso, hw⟩ | ⟨hiso, hw, hr⟩
  · have hcf : hasConflict d t snapshotConflictFn = false :=
      hasConflict_of_fn_false d t _ (fun t2 => by simp [snapshotConflictFn, hw, setsShareKeys])
    constructor
    · simp [completeTransaction, hcf, hiso, recordState, Except.map]
    · simp [completeTransaction, hcf, hiso, recordState, txGet_txSet_self]
  · have hcf : hasConflict d t serializableConflictFn = false :=
      hasConflict_of_fn_false d t _
        (fun t2 => by simp [serializableConflictFn, hw, hr, setsShareKeys])
    constructor
    · simp [completeTransaction, hcf, hiso, recordState, Except.map]
    · simp [completeTransaction, hcf, hiso, recordState, txGet_txSet_self]

/-- A one-transaction snapshot database whose live transaction has touched
nothing. -/
def emptyCommitTx : Transaction :=
  { isolation := IsolationLevel.snapshot, id := 1,
    state := TransactionState.inProgress, inprogress := [],
    writeset := [], readset := [] }

def emptyCommitDb : Database :=
  { defaultIsolation := IsolationLevel.snapshot, store := [],
    transactions := [(1, emptyCommitTx)], nextTransactionId := 2 }

theorem c3_amended_empty_sets_commit_witness :
    (execCommand emptyCommitDb (some emptyCommitTx) Command.commit).2.2 = Except.ok "" :=
  (c3_amended_empty_sets_commit emptyCommitDb emptyCommitTx (by decide)
    (Or.inl ⟨by decide, by decide⟩)).1

/-- C4: the failing input. In the snapshot trace the committing transaction
wrote only key a and the concurrent committed transaction wrote only key b;
the writesets share no key, yet the commit fails with the snapshot conflict
error, because `setsShareKeys` treats a successful `Seek` (any element
greater than or equal to the probe) as an overlap. -/
theorem c4_conflict_without_shared_key :
    snapTrace5.2.1 = some snapTx1AfterSet ∧
    snapTx1AfterSet.writeset = ["a"] ∧
    (txGet snapTrace5.1.transactions 2).map Transaction.writeset = some ["b"] ∧
    (txGet snapTrace5.1.transactions 2).map Transaction.state =
      some TransactionState.committed ∧
    ¬("a" ∈ (["b"] : List String)) ∧
    snapTrace6.2.2 = Except.error "write-write conflict" := by
  decide

/-- C5: on a commit whose conflict check fires under Snapshot or
Serializable isolation, the history record is transitioned to rolled-back
in the same step that returns the error, the error text is exactly the
level's message, and the connection's transaction is cleared; a
conflict-free commit transitions the record to committed. -/
theorem c5_commit_conflict_handling (d : Database) (t : Transaction)
    (hvalid : validTransaction d (some t) = true) :
    (execCommand d (some t) Command.commit).2.1 = none ∧
    (t.isolation = IsolationLevel.snapshot → hasConflict d t snapshotConflictFn = true →
      (execCommand d (some t) Command.commit).2.2 = Except.error "write-write conflict" ∧
      txGet (execCommand d (some t) Command.commit).1.transactions t.id =
        some { t with state := TransactionState.rolledBack }) ∧
    (t.isolation = IsolationLevel.serializable → hasConflict d t serializableConflictFn = true →
      (execCommand d (some t) Command.commit).2.2 =
        Except.error "read-write or write-write conflict" ∧
      txGet (execCommand d (some t) Command.commit).1.transactions t.id =
        some { t with state := TransactionState.rolledBack }) ∧
    (¬(t.isolation = IsolationLevel.snapshot ∧ hasConflict d t snapshotConflictFn = true) →
      ¬(t.isolation = IsolationLevel.serializable ∧
          hasConflict d t serializableConflictFn = true) →
      (execCommand d (some t) Command.commit).2.2 = Except.ok "" ∧
      txGet (execCommand d (some t) Command.commit).1.transactions t.id =
        some { t with state := TransactionState.committed }) := by
  rw [execCommand_commit_eq d t hvalid]
  refine ⟨?_, ?_, ?_, ?_⟩
  · rfl
  · intro hiso hc
    constructor
    · simp [completeTransaction, hiso, hc, recordState, Except.map]
    · simp [completeTransaction, hiso, hc, recordState, txGet_txSet_self]
  · intro hiso hc
    constructor
    · simp [completeTransaction, hiso, hc, recordState, Except.map]
    · simp [completeTransaction, hiso, hc, recordState, txGet_txSet_self]
  · intro h1 h2
    constructor
    · simp only [completeTransaction, recordState]
      rw [if_neg, if_neg]
      · rfl
      · intro hcond
        exact h2 ⟨hcond.2.1, hcond.2.2⟩
      · intro hcond
        exact h1 ⟨hcond.2.1, hcond.2.2⟩
    · simp only [completeTransaction, recordState]
      rw [if_neg, if_neg]
      · simp [txGet_txSet_self]
      · intro hcond
        exact h2 ⟨hcond.2.1, hcond.2.2⟩
      · intro hcond
        exact h1 ⟨hcond.2.1, hcond.2.2⟩

theorem c5_commit_conflict_handling_witness :
    (execCommand snapTrace5.1 (some snapTx1AfterSet) Command.commit).2.1 = none ∧
    (execCommand snapTrace5.1 (some snapTx1AfterSet) Command.commit).2.2 =
      Except.error "write-write conflict" := by
  have h := c5_commit_conflict_handling snapTrace5.1 snapTx1AfterSet (by decide)
  exact ⟨h.1, (h.2.1 (by decide) (by decide)).1⟩

/-- C6: a get under an active transaction leaves the database untouched,
inserts the key into the readset before the scan, walks the version list
newest to oldest, returns the value of the first visible version, and when
none is visible — including when the key has no versions — fails with
exactly the missing-key error. -/
theorem c6_get_semantics (d : Database) (t : Transaction) (key : String)
    (hvalid : validTransaction d (some t) = true) :
    (execCommand d (some t) (Command.get key)).1 = d ∧
    (execCommand d (some t) (Command.get key)).2.1 =
      some { t with readset := strInsert key t.readset } ∧
    key ∈ strInsert key t.readset ∧
    (execCommand d (some t) (Command.get key)).2.2 =
      (match ((storeGet d.store key).reverse).find? (fun v => isVisible d t v) with
       | some v => Except.ok v.value
       | none => Except.error "cannot get key that doesn't exist") ∧
    (storeGet d.store key = [] →
      (execCommand d (some t) (Command.get key)).2.2 =
        Except.error "cannot get key that doesn't exist") := by
  rw [execCommand_get_eq d t key hvalid]
  refine ⟨rfl, rfl, mem_strInsert_self key t.readset, rfl, ?_⟩
  intro hempty
  simp [hempty]

theorem c6_get_semantics_witness :
    (execCommand rcWitnessDb (some rcWitnessTx) (Command.get "x")).1 = rcWitnessDb ∧
    (execCommand rcWitnessDb (some rcWitnessTx) (Command.get "x")).2.2 = Except.ok "a" := by
  have h := c6_get_semantics rcWitnessDb rcWitnessTx "x" (by decide)
  refine ⟨h.1, ?_⟩
  rw [h.2.2.2.1]
  decide

/-- C7: a delete under an active transaction tombstones every visible
version of the key with the transaction's id and records the key in the
writeset; when no version is visible it fails with exactly the missing-key
error while leaving every version list and the transaction, writeset
included, unchanged. -/
theorem c7_delete_semantics (d : Database) (t : Transaction) (key : String)
    (hvalid : validTransaction d (some t) = true) :
    ((storeGet d.store key).any (fun v => isVisible d t v) = false →
      (execCommand d (some t) (Command.delete key)).2.2 =
        Except.error "cannot delete key that doesn't exist" ∧
      (∀ k2, storeGet (execCommand d (some t) (Command.delete key)).1.store k2 =
        storeGet d.store k2) ∧
      (execCommand d (some t) (Command.delete key)).2.1 = some t) ∧
    ((storeGet d.store key).any (fun v => isVisible d t v) = true →
      (execCommand d (some t) (Command.delete key)).2.2 = Except.ok "" ∧
      storeGet (execCommand d (some t) (Command.delete key)).1.store key =
        (storeGet d.store key).map
          (fun v => if isVisible d t v then { v with txEndId := t.id } else v) ∧
      (execCommand d (some t) (Command.delete key)).2.1 =
        some { t with writeset := strInsert key t.writeset } ∧
      key ∈ strInsert key t.writeset) := by
  constructor
  · intro hf
    rw [execCommand_delete_notfound_eq d t key hvalid hf]
    refine ⟨rfl, ?_, rfl⟩
    intro k2
    by_cases hk : k2 = key
    · subst hk
      simp [storeGet_storeSet_self, tombstoneVisible_of_none d t _ hf]
    · simp [storeGet_storeSet_ne d.store key k2 _ hk]
  · intro hf
    rw [execCommand_delete_found_eq d t key hvalid hf]
    exact ⟨rfl, by simp [storeGet_storeSet_self, tombstoneVisible], rfl,
      mem_strInsert_self key t.writeset⟩

theorem c7_delete_semantics_witness :
    (execCommand rcWitnessDb (some rcWitnessTx) (Command.delete "x")).2.2 = Except.ok "" ∧
    storeGet (execCommand rcWitnessDb (some rcWitnessTx) (Command.delete "x")).1.store "x" =
      [{ txStartId := 1, txEndId := 2, value := "a" }] := by
  have h := (c7_delete_semantics rcWitnessDb rcWitnessTx "x" (by decide)).2 (by decide)
  refine ⟨h.1, ?_⟩
  rw [h.2.1]
  decide

/-- A version just written by `t` (its own `txStartId`, zero `txEndId`) is
visible to `t` at every isolation level, provided `t` is not in its own
in-progress snapshot. -/
theorem isVisible_own_new (d : Database) (t : Transaction) (val : String)
    (hself : t.id ∉ t.inprogress) :
    isVisible d t { txStartId := t.id, txEndId := 0, value := val } = true := by
  simp [isVisible, hself]

/-- `validTransaction` reads only the history and the transaction id. -/
theorem validTransaction_congr (dA dB : Database) (tA tB : Transaction)
    (hd : dA.transactions = dB.transactions) (hid : tA.id = tB.id) :
    validTransaction dA (some tA) = validTransaction dB (some tB) := by
  simp only [validTransaction, hd, hid]

/-- After the tombstoning scan of `set`/`delete`, no resulting version is
visible any longer to the acting transaction (nor to any later view of it
with the same isolation, id and snapshot over the same history): a version
that was visible now carries the transaction's own id in `txEndId`, and one
that was not visible is unchanged. -/
theorem tombstone_all_invisible (dA dB : Database) (tA tB : Transaction) (vs : List Value)
    (hid : tA.id ≠ 0)
    (hd : dA.transactions = dB.transactions) (hiso : tA.isolation = tB.isolation)
    (hidEq : tA.id = tB.id) (hip : tA.inprogress = tB.inprogress) :
    ∀ w ∈ tombstoneVisible dA tA vs, isVisible dB tB w = false := by
  intro w hw
  obtain ⟨y, hy, hyw⟩ := List.mem_map.mp hw
  cases hv : isVisible dA tA y with
  | true =>
      simp only [hv] at hyw
      simp only [if_true] at hyw
      subst hyw
      exact isVisible_self_ended dB tB _ (hidEq ▸ hid) (by simp [hidEq])
  | false =>
      simp only [hv, Bool.false_eq_true, if_false] at hyw
      subst hyw
      rw [isVisible_congr dB dA tB tA y hd.symm hiso.symm hidEq.symm hip.symm]
      exact hv

/-- C8: within one active transaction, a `set` followed by a `get` of the
same key returns the written value, and a `set`, `delete`, `get` sequence
fails with the missing-key error, at every isolation level. -/
theorem c8_set_get_delete_roundtrip (d : Database) (t : Transaction) (k v : String)
    (hvalid : validTransaction d (some t) = true)
    (hself : t.id ∉ t.inprogress) :
    ∀ d1 t1 r1, execCommand d (some t) (Command.set k v) = (d1, some t1, r1) →
      r1 = Except.ok v ∧
      (execCommand d1 (some t1) (Command.get k)).2.2 = Except.ok v ∧
      ∀ d2 t2 r2, execCommand d1 (some t1) (Command.delete k) = (d2, some t2, r2) →
        (execCommand d2 (some t2) (Command.get k)).2.2 =
          Except.error "cannot get key that doesn't exist" := by
  intro d1 t1 r1 h1
  rw [execCommand_set_eq d t k v hvalid] at h1
  injection h1 with hd1 h1b
  injection h1b with ht1 hr1
  injection ht1 with ht1
  have htrans1 : d1.transactions = d.transactions := by rw [← hd1]
  have hiso1 : t1.isolation = t.isolation := by rw [← ht1]
  have hid1 : t1.id = t.id := by rw [← ht1]
  have hip1 : t1.inprogress = t.inprogress := by rw [← ht1]
  have hstore1 : storeGet d1.store k =
      tombstoneVisible d t (storeGet d.store k) ++
        [{ txStartId := t.id, txEndId := 0, value := v }] := by
    rw [← hd1]
    exact storeGet_storeSet_self _ _ _
  have hvalid1 : validTransaction d1 (some t1) = true :=
    (validTransaction_congr d1 d t1 t htrans1 hid1).trans hvalid
  have hvisNew1 : isVisible d1 t1 { txStartId := t.id, txEndId := 0, value := v } = true := by
    have h := isVisible_own_new d1 t1 v (by rw [hid1, hip1]; exact hself)
    rw [hid1] at h
    exact h
  refine ⟨hr1.symm, ?_, ?_⟩
  · rw [execCommand_get_eq d1 t1 k hvalid1, hstore1]
    simp only [List.reverse_append, List.reverse_cons, List.reverse_nil, List.nil_append,
      List.singleton_append]
    rw [List.find?_cons_of_pos _ hvisNew1]
  · intro d2 t2 r2 h2
    have hfound : (storeGet d1.store k).any (fun w => isVisible d1 t1 w) = true := by
      rw [hstore1]
      simp [List.any_append, hvisNew1]
    rw [execCommand_delete_found_eq d1 t1 k hvalid1 hfound] at h2
    injection h2 with hd2 h2b
    injection h2b with ht2a hr2
    injection ht2a with ht2
    have htrans2 : d2.transactions = d1.transactions := by rw [← hd2]
    have hiso2 : t2.isolation = t1.isolation := by rw [← ht2]
    have hid2 : t2.id = t1.id := by rw [← ht2]
    have hip2 : t2.inprogress = t1.inprogress := by rw [← ht2]
    have hstore2 : storeGet d2.store k = tombstoneVisible d1 t1 (storeGet d1.store k) := by
      rw [← hd2]
      exact storeGet_storeSet_self _ _ _
    have hvalid2 : validTransaction d2 (some t2) = true :=
      (validTransaction_congr d2 d1 t2 t1 htrans2 hid2).trans hvalid1
    have hid0 : t1.id ≠ 0 := by
      rw [hid1]
      exact Nat.pos_iff_ne_zero.mp (validTransaction_id_pos d t hvalid)
    rw [execCommand_get_eq d2 t2 k hvalid2]
    have hnone : (storeGet d2.store k).reverse.find? (fun w => isVisible d2 t2 w) = none := by
      rw [List.find?_eq_none]
      intro x hx
      rw [List.mem_reverse, hstore2] at hx
      have hfalse := tombstone_all_invisible d1 d2 t1 t2 (storeGet d1.store k) hid0
        htrans2.symm hiso2.symm hid2.symm hip2.symm x hx
      simp [hfalse]
    rw [hnone]

/-- Database state after `set y b` from `rcWitnessDb`. -/
def c8Db1 : Database :=
  { defaultIsolation := IsolationLevel.readCommitted,
    store := [("x", [{ txStartId := 1, txEndId := 0, value := "a" }]),
      ("y", [{ txStartId := 2, txEndId := 0, value := "b" }])],
    transactions := rcWitnessDb.transactions, nextTransactionId := 3 }

/-- Live transaction after `set y b` from `rcWitnessTx`. -/
def c8Tx1 : Transaction :=
  { isolation := IsolationLevel.readCommitted, id := 2,
    state := TransactionState.inProgress, inprogress := [],
    writeset := ["y"], readset := [] }

theorem c8_set_get_delete_roundtrip_witness :
    (execCommand c8Db1 (some c8Tx1) (Command.get "y")).2.2 = Except.ok "b" :=
  ((c8_set_get_delete_roundtrip rcWitnessDb rcWitnessTx "y" "b" (by decide) (by decide))
      c8Db1 c8Tx1 (Except.ok "b") (by decide)).2.1

/-- C9: a get inserts its key into the readset before the visibility scan,
so the key is recorded even when the get fails; concretely, in the
serializable trace the second transaction's only operation on x is a failed
get, x still lands in its readset while its writeset stays empty, and its
commit then fails with the read-write conflict error against the concurrent
committed writer of x. -/
theorem c9_failed_get_readset (d : Database) (t : Transaction) (key : String)
    (hvalid : validTransaction d (some t) = true) :
    ((execCommand d (some t) (Command.get key)).2.1 =
        some { t with readset := strInsert key t.readset } ∧
      key ∈ strInsert key t.readset) ∧
    (serTrace5.2.2 = Except.error "cannot get key that doesn't exist" ∧
      serTrace5.2.1 = some serTx2AfterGet ∧
      serTx2AfterGet.writeset = [] ∧
      "x" ∈ serTx2AfterGet.readset ∧
      serTrace6.2.2 = Except.error "read-write or write-write conflict") := by
  refine ⟨?_, by decide⟩
  rw [execCommand_get_eq d t key hvalid]
  exact ⟨rfl, mem_strInsert_self key t.readset⟩

theorem c9_failed_get_readset_witness :
    (execCommand rcWitnessDb (some rcWitnessTx) (Command.get "z")).2.1 =
      some { rcWitnessTx with readset := strInsert "z" rcWitnessTx.readset } :=
  ((c9_failed_get_readset rcWitnessDb rcWitnessTx "z" (by decide)).1).1

theorem txGet_mem (m : List (Nat × Transaction)) (id : Nat) (t2 : Transaction)
    (h : txGet m id = some t2) : (id, t2) ∈ m := by
  induction m with
  | nil => exact absurd h (by simp [txGet])
  | cons p ps ih =>
      by_cases hp : p.1 = id
      · simp only [txGet, hp, if_true] at h
        injection h with h
        have hpeq : p = (id, t2) := by
          cases p
          simp_all
        rw [← hpeq]
        exact List.mem_cons_self p ps
      · simp only [txGet, hp, if_false] at h
        exact List.mem_cons_of_mem p (ih h)

/-- Over a history whose keys are strictly sorted, `Seek` at a key present
in the map lands exactly on that key's record. -/
theorem txSeek_of_txGet (m : List (Nat × Transaction)) (id : Nat) (t2 : Transaction)
    (hs : m.Pairwise (fun p q => p.1 < q.1)) (hg : txGet m id = some t2) :
    txSeek m id = some t2 := by
  induction m with
  | nil => exact absurd hg (by simp [txGet])
  | cons p ps ih =>
      by_cases hp : p.1 = id
      · simp only [txGet, hp, if_true] at hg
        simp only [txSeek, hp, le_refl, if_true]
        exact hg
      · simp only [txGet, hp, if_false] at hg
        have hmem := txGet_mem ps id t2 hg
        have hlt : p.1 < id := by
          have := (List.pairwise_cons.mp hs).1 (id, t2) hmem
          exact this
        have hnle : ¬(id ≤ p.1) := by omega
        simp only [txSeek, hnle, if_false]
        exact ih (List.pairwise_cons.mp hs).2 hg

theorem validTransaction_state (d : Database) (t : Transaction)
    (hvalid : validTransaction d (some t) = true) :
    ∃ h0, txGet d.transactions t.id = some h0 ∧ h0.state = TransactionState.inProgress := by
  simp only [validTransaction, Bool.and_eq_true] at hvalid
  obtain ⟨-, h2⟩ := hvalid
  cases hg : txGet d.transactions t.id with
  | none =>
      rw [hg] at h2
      exact absurd h2 (by simp)
  | some h0 =>
      rw [hg] at h2
      refine ⟨h0, rfl, ?_⟩
      simpa using h2

/-- C10: the conflict scan starting at the committing transaction's own id
never counts the transaction itself, because its history record is still
in progress while the check runs; consequently when no transaction in the
concurrency window (the in-progress snapshot plus the ids strictly after
the transaction's own, below the id counter) is committed, the commit
always succeeds and the record transitions to committed. -/
theorem c10_self_not_conflict_partner (d : Database) (t : Transaction)
    (hvalid : validTransaction d (some t) = true)
    (hsorted : d.transactions.Pairwise (fun p q => p.1 < q.1))
    (hpres : ∀ id, (id ∈ t.inprogress ∨ (t.id ≤ id ∧ id < d.nextTransactionId)) →
      ∃ t2, txGet d.transactions id = some t2)
    (hwin : ∀ id t2, (id ∈ t.inprogress ∨ (t.id < id ∧ id < d.nextTransactionId)) →
      txGet d.transactions id = some t2 → t2.state ≠ TransactionState.committed) :
    (∀ f, hasConflict d t f = false) ∧
    (execCommand d (some t) Command.commit).2.2 = Except.ok "" ∧
    txGet (execCommand d (some t) Command.commit).1.transactions t.id =
      some { t with state := TransactionState.committed } := by
  have hAt : ∀ id, (id ∈ t.inprogress ∨ (t.id ≤ id ∧ id < d.nextTransactionId)) →
      ∀ f, conflictAt d t f id = false := by
    intro id hid f
    obtain ⟨t2, hg⟩ := hpres id hid
    have hseek := txSeek_of_txGet d.transactions id t2 hsorted hg
    unfold conflictAt
    rw [hseek]
    have hnc : t2.state ≠ TransactionState.committed := by
      rcases hid with hmem | ⟨hle, hlt⟩
      · exact hwin id t2 (Or.inl hmem) hg
      · by_cases he : id = t.id
        · subst he
          obtain ⟨h0, hg0, hst⟩ := validTransaction_state d t hvalid
          rw [hg0] at hg
          injection hg with hg
          rw [← hg, hst]
          simp
        · have hlt2 : t.id < id := Nat.lt_of_le_of_ne hle (fun hc => he hc.symm)
          exact hwin id t2 (Or.inr ⟨hlt2, hlt⟩) hg
    simp [hnc]
  have hall : ∀ f, hasConflict d t f = false := by
    intro f
    simp only [hasConflict, Bool.or_eq_false_iff, List.any_eq_false]
    constructor
    · intro id hmem
      rw [hAt id (Or.inl hmem) f]
      simp
    · intro id hmem
      rw [List.mem_range'_1] at hmem
      have hcond : t.id ≤ id ∧ id < d.nextTransactionId := by omega
      rw [hAt id (Or.inr hcond) f]
      simp
  refine ⟨hall, ?_⟩
  rw [execCommand_commit_eq d t hvalid]
  constructor
  · simp [completeTransaction, recordState, hall snapshotConflictFn,
      hall serializableConflictFn, Except.map]
  · simp [completeTransaction, recordState, hall snapshotConflictFn,
      hall serializableConflictFn, txGet_txSet_self, Except.map]

theorem c10_self_not_conflict_partner_witness :
    (∀ f, hasConflict emptyCommitDb emptyCommitTx f = false) ∧
    (execCommand emptyCommitDb (some emptyCommitTx) Command.commit).2.2 = Except.ok "" := by
  have h := c10_self_not_conflict_partner emptyCommitDb emptyCommitTx (by decide)
    (by simp [emptyCommitDb])
    (by
      intro id hid
      rcases hid with hmem | ⟨h1, h2⟩
      · exact absurd hmem (by simp [emptyCommitTx])
      · have : id = 1 := by
          simp only [emptyCommitTx] at h1
          simp only [emptyCommitDb] at h2
          omega
        subst this
        exact ⟨emptyCommitTx, by decide⟩)
    (by
      intro id t2 hid hg
      rcases hid with hmem | ⟨h1, h2⟩
      · exact absurd hmem (by simp [emptyCommitTx])
      · simp only [emptyCommitTx] at h1
        simp only [emptyCommitDb] at h2
        omega)
  exact ⟨h.1, h.2.1⟩
